import Mathlib

/-!
Verification development for the idiom-aware contextual translation pipeline
(`test_translation.py` and `idiom_detector.py`).

Modelling conventions:
* Python `str` values that flow through text processing are modelled as
  `List Char` (`PyStr`); language codes and script names stay `String`.
* Python's `str.isalpha` is modelled by `pyIsAlpha`, which classifies the
  Unicode blocks this program actually handles (ASCII letters, the Devanagari
  letters of U+0900–U+097F, the Telugu letters of U+0C00–U+0C7F); characters
  outside these blocks are treated as non-alphabetic.
* Python's `str.lower` is modelled for ASCII (the language codes and the
  English catalog are ASCII; Devanagari and Telugu have no case).
* Float comparisons `count / total > 0.5` are modelled exactly as
  `2 * count > total` (equivalent for the rational values involved).
* The two neural models (fine-tuned and base NLLB) are the "external
  translation capability"; both are modelled as oracles inside `Capability`
  that may fail (`Except`), and every invocation is recorded as a `Call`.
-/

namespace ContextBridge

abbrev PyStr := List Char

/-- Character codepoint lies in the inclusive range `[lo, hi]`. -/
def inRange (lo hi : Nat) (c : Char) : Bool :=
  decide (lo ≤ c.toNat) && decide (c.toNat ≤ hi)

/-- Models Python `str.isalpha` on the Unicode blocks used by this repository:
ASCII letters, Devanagari letters (U+0904–U+0939, U+093D, U+0950,
U+0958–U+0961, U+0971–U+097F) and Telugu letters (U+0C05–U+0C39, U+0C3D,
U+0C58–U+0C5A, U+0C60–U+0C61).  Signs, digits and punctuation of those blocks
are not alphabetic, matching Python. -/
def pyIsAlpha (c : Char) : Bool :=
  inRange 65 90 c || inRange 97 122 c ||
  inRange 0x904 0x939 c || inRange 0x93D 0x93D c || inRange 0x950 0x950 c ||
  inRange 0x958 0x961 c || inRange 0x971 0x97F c ||
  inRange 0xC05 0xC39 c || inRange 0xC3D 0xC3D c || inRange 0xC58 0xC5A c ||
  inRange 0xC60 0xC61 c

/-- Models Python whitespace (`str.split`, `str.strip`, regex `\s`) for the
ASCII whitespace characters. -/
def pyIsSpace (c : Char) : Bool :=
  c == ' ' || c == '\t' || c == '\n' || c == '\r' ||
  c == Char.ofNat 0x0B || c == Char.ofNat 0x0C

/-- Models the regex class `\w` (word characters): alphabetic characters,
ASCII digits and the underscore. -/
def pyIsWord (c : Char) : Bool :=
  pyIsAlpha c || inRange 48 57 c || c == '_'

/-- ASCII lower-casing of a single character (Python `str.lower` restricted to
the ASCII data this program compares case-insensitively). -/
def lowerAscii (c : Char) : Char :=
  if 65 ≤ c.toNat ∧ c.toNat ≤ 90 then Char.ofNat (c.toNat + 32) else c

/-- Python `str.lower` on a text. -/
def pyLowerStr (s : PyStr) : PyStr := s.map lowerAscii

/-- Python `str.lower` on a language code. -/
def pyLower (s : String) : String := String.mk (s.data.map lowerAscii)

/-- Python `str.strip`: drop whitespace from both ends. -/
def pyStrip (s : PyStr) : PyStr :=
  ((s.dropWhile pyIsSpace).reverse.dropWhile pyIsSpace).reverse

/-- The run of leading whitespace of a text. -/
def leadWS (s : PyStr) : PyStr := s.takeWhile pyIsSpace

/-- The run of trailing whitespace of a text. -/
def trailWS (s : PyStr) : PyStr := (s.reverse.takeWhile pyIsSpace).reverse

theorem dropWhile_length_le (p : Char → Bool) (l : PyStr) :
    (l.dropWhile p).length ≤ l.length := by
  induction l with
  | nil => simp
  | cons a t ih =>
    by_cases h : p a
    · simp [List.dropWhile, h]; omega
    · simp [List.dropWhile, h]

/-- Python `str.split()` (no separator): split on runs of whitespace,
producing no empty words.  Structural recursion on a fuel bounded by the
input length (each step consumes at least one character, so the fuel of
`pySplit` below never runs out). -/
def pySplitF : Nat → PyStr → List PyStr
  | 0, _ => []
  | _ + 1, [] => []
  | fuel + 1, c :: s =>
    if pyIsSpace c then pySplitF fuel s
    else (c :: s.takeWhile (fun x => !pyIsSpace x)) ::
      pySplitF fuel (s.dropWhile (fun x => !pyIsSpace x))

/-- Python `str.split()` with the fuel instantiated. -/
def pySplit (s : PyStr) : List PyStr := pySplitF (s.length + 1) s

/-- Boolean test that `n` occurs at the start of `h` (helper for substring
containment). -/
def startsWith : PyStr → PyStr → Bool
  | [], _ => true
  | _ :: _, [] => false
  | a :: n, b :: h => a == b && startsWith n h

/-- Models Python's `needle in haystack` substring containment. -/
def containsSub (n : PyStr) : PyStr → Bool
  | [] => startsWith n []
  | h :: t => startsWith n (h :: t) || containsSub n t

/-- Python `' '.join(words)`. -/
def joinSpace : List PyStr → PyStr
  | [] => []
  | [w] => w
  | w :: ws => w ++ ' ' :: joinSpace ws

/-! ## `TranslationTester.detect_script` (test_translation.py) -/

/-- `sum(1 for c in text if 'ఀ' <= c <= '౿')`: every character of the
Telugu block counts, alphabetic or not. -/
def telugu_count (text : PyStr) : Nat :=
  (text.filter (inRange 0xC00 0xC7F)).length

/-- `sum(1 for c in text if 'ऀ' <= c <= 'ॿ')`: every character of the
Devanagari block counts, alphabetic or not. -/
def hindi_count (text : PyStr) : Nat :=
  (text.filter (inRange 0x900 0x97F)).length

/-- `sum(1 for c in text if c.isalpha() and ord(c) < 128)`. -/
def latin_count (text : PyStr) : Nat :=
  (text.filter (fun c => pyIsAlpha c && decide (c.toNat < 128))).length

/-- `len([c for c in text if c.isalpha()])`. -/
def total_alpha (text : PyStr) : Nat :=
  (text.filter pyIsAlpha).length

/-- `TranslationTester.detect_script`: dominant-script classification with a
strict 50% threshold, checked in the order Telugu, Devanagari, Latin. -/
def detect_script (text : PyStr) : String :=
  if text.isEmpty then "Unknown"
  else
    let total := total_alpha text
    if total = 0 then "Unknown"
    else if 2 * telugu_count text > total then "Telugu"
    else if 2 * hindi_count text > total then "Devanagari"
    else if 2 * latin_count text > total then "Latin"
    else "Mixed"

/-! ## `TranslationTester.get_expected_script` and language normalization -/

/-- The `script_map` literal of `get_expected_script`, in source order.  Note
that the first three keys are mixed-case canonical codes while the lookup key
is lower-cased. -/
def script_map : List (String × String) :=
  [("eng_Latn", "Latin"), ("hin_Deva", "Devanagari"), ("tel_Telu", "Telugu"),
   ("eng", "Latin"), ("hin", "Devanagari"), ("tel", "Telugu"),
   ("english", "Latin"), ("hindi", "Devanagari"), ("telugu", "Telugu")]

/-- `TranslationTester.get_expected_script`:
`script_map.get(lang_code.lower(), 'Unknown')`. -/
def get_expected_script (lang_code : String) : String :=
  (script_map.lookup (pyLower lang_code)).getD "Unknown"

/-- The `lang_map` alias table of `TranslationTester.translate`. -/
def lang_map : List (String × String) :=
  [("eng", "eng_Latn"), ("hin", "hin_Deva"), ("tel", "tel_Telu"),
   ("english", "eng_Latn"), ("hindi", "hin_Deva"), ("telugu", "tel_Telu")]

/-- `lang_map.get(code.lower(), code)`: alias normalization; codes outside the
alias table pass through unchanged. -/
def normLang (code : String) : String :=
  (lang_map.lookup (pyLower code)).getD code

/-- The script → language reverse lookup inside `translate`'s fallback branch
(`detected_source`). -/
def script_to_lang (actual_script : String) : Option String :=
  if actual_script = "Devanagari" then some "hin_Deva"
  else if actual_script = "Telugu" then some "tel_Telu"
  else if actual_script = "Latin" then some "eng_Latn"
  else none

/-! ## `TranslationTester.translate` (plain mode) -/

/-- One invocation of the external translation capability. -/
structure Call where
  text : PyStr
  src : String
  tgt : String
deriving DecidableEq, Repr

/-- The external translation capability: `main` is the fine-tuned model's
generate-and-decode, `fb` is the base NLLB model used by
`fallback_translate`.  Either call may fail (network/model error). -/
structure Capability where
  main : PyStr → String → String → Except Unit PyStr
  fb : PyStr → String → String → Except Unit PyStr

/-- Errors a request can surface: a failed capability call, or the
`IndexError` reachable in `_join_parts_intelligently`. -/
inductive PyErr where
  | capFailure
  | indexError
deriving DecidableEq, Repr

/-- `TranslationTester.translate` with the default `use_fallback=True` (plain
mode): normalize codes, invoke the capability, validate the output script and
perform the one-shot fallback retry on mismatch.  Returns the
`(translation, used_fallback)` pair (or the propagated failure) together with
the list of capability calls the request issued. -/
def translate (cap : Capability) (text : PyStr)
    (source_lang target_lang : String) :
    Except PyErr (PyStr × Bool) × List Call :=
  let source := normLang source_lang
  let target := normLang target_lang
  let expected := get_expected_script target
  let call1 : Call := ⟨text, source, target⟩
  match cap.main text source target with
  | Except.error _ => (Except.error PyErr.capFailure, [call1])
  | Except.ok raw =>
    let translation := pyStrip raw
    let actual := detect_script translation
    if actual = expected then (Except.ok (translation, false), [call1])
    else
      match script_to_lang actual with
      | some detected_source =>
        if detected_source ≠ target then
          let call2 : Call := ⟨translation, detected_source, target⟩
          match cap.fb translation detected_source target with
          | Except.error _ => (Except.error PyErr.capFailure, [call1, call2])
          | Except.ok fraw =>
            let fallback_translation := pyStrip fraw
            -- fallback output is returned with flag True whether or not its
            -- script now matches (both source branches return the same pair)
            if detect_script fallback_translation = expected then
              (Except.ok (fallback_translation, true), [call1, call2])
            else
              (Except.ok (fallback_translation, true), [call1, call2])
        else (Except.ok (translation, false), [call1])
      | none => (Except.ok (translation, false), [call1])

/-! ## Supporting lemmas about `detect_script` -/

theorem total_alpha_le_length (t : PyStr) : total_alpha t ≤ t.length :=
  List.length_filter_le _ _

theorem total_alpha_pos {t : PyStr} (h : ∃ c ∈ t, pyIsAlpha c) :
    0 < total_alpha t := by
  obtain ⟨c, hc, ha⟩ := h
  have hm : c ∈ t.filter pyIsAlpha := List.mem_filter.mpr ⟨hc, ha⟩
  unfold total_alpha
  exact List.length_pos.mpr (fun he => by rw [he] at hm; simp at hm)

theorem detect_script_unfold (t : PyStr) (hne : t ≠ []) (h0 : total_alpha t ≠ 0) :
    detect_script t =
      (if 2 * telugu_count t > total_alpha t then "Telugu"
       else if 2 * hindi_count t > total_alpha t then "Devanagari"
       else if 2 * latin_count t > total_alpha t then "Latin"
       else "Mixed") := by
  unfold detect_script
  rw [if_neg (by simp [hne]), if_neg h0]

/-- C1: the spec says every recognized code (canonical `eng_Latn`, `hin_Deva`,
`tel_Telu` and the aliases) has a defined expected script.  The code's own
table lists the canonical codes, but the lookup lower-cases the query while
those keys are mixed-case, so exactly the three canonical codes fall through
to `Unknown`; only the all-lowercase aliases resolve. -/
theorem C1_canonical_codes_yield_unknown :
    get_expected_script "eng_Latn" = "Unknown" ∧
    get_expected_script "hin_Deva" = "Unknown" ∧
    get_expected_script "tel_Telu" = "Unknown" ∧
    get_expected_script "eng" = "Latin" ∧
    get_expected_script "hin" = "Devanagari" ∧
    get_expected_script "tel" = "Telugu" ∧
    get_expected_script "english" = "Latin" ∧
    get_expected_script "hindi" = "Devanagari" ∧
    get_expected_script "telugu" = "Telugu" :=
  ⟨rfl, rfl, rfl, rfl, rfl, rfl, rfl, rfl, rfl⟩

/-- C8 counterexample: the claim says the dominant script is chosen by
alphabetic-character counts.  The Devanagari digit U+0966 is not alphabetic,
yet it is counted by the Devanagari block counter; on `['०', 'a']` the Latin
alphabetic count (1 of 1) exceeds 50% but the classifier answers
`Devanagari`. -/
theorem C8_counterexample :
    detect_script [Char.ofNat 0x966, 'a'] = "Devanagari" ∧
    2 * latin_count [Char.ofNat 0x966, 'a'] >
      total_alpha [Char.ofNat 0x966, 'a'] ∧
    ("Devanagari" : String) ≠ "Latin" :=
  ⟨rfl, by decide, by decide⟩

/-- C8 (amended): single-block text with at least one alphabetic character is
classified as that block's script (with Latin read as ASCII, as the code
implements it); text with no alphabetic characters is `Unknown`.  The
dominance rule, however, compares the raw block-character counts of the
Telugu and Devanagari blocks (alphabetic or not) against the alphabetic
total, in the fixed order Telugu, Devanagari, Latin. -/
theorem C8_single_script_classification :
    (∀ t : PyStr, (∀ c ∈ t, inRange 0xC00 0xC7F c) → (∃ c ∈ t, pyIsAlpha c) →
      detect_script t = "Telugu") ∧
    (∀ t : PyStr, (∀ c ∈ t, inRange 0x900 0x97F c) → (∃ c ∈ t, pyIsAlpha c) →
      detect_script t = "Devanagari") ∧
    (∀ t : PyStr, (∀ c ∈ t, c.toNat < 128) → (∃ c ∈ t, pyIsAlpha c) →
      detect_script t = "Latin") ∧
    (∀ t : PyStr, total_alpha t = 0 → detect_script t = "Unknown") := by
  refine ⟨?_, ?_, ?_, ?_⟩
  · intro t h1 h2
    have hne : t ≠ [] := by rintro rfl; simp at h2
    have h4 := total_alpha_pos h2
    have h3 := total_alpha_le_length t
    have htc : telugu_count t = t.length := by
      unfold telugu_count; rw [List.filter_eq_self.mpr h1]
    rw [detect_script_unfold t hne (by omega), if_pos (by omega)]
  · intro t h1 h2
    have hne : t ≠ [] := by rintro rfl; simp at h2
    have h4 := total_alpha_pos h2
    have h3 := total_alpha_le_length t
    have hhc : hindi_count t = t.length := by
      unfold hindi_count; rw [List.filter_eq_self.mpr h1]
    have htc : telugu_count t = 0 := by
      unfold telugu_count
      rw [List.length_eq_zero.mpr (List.filter_eq_nil_iff.mpr ?_)]
      intro c hc
      have := h1 c hc
      unfold inRange at this ⊢
      simp only [Bool.and_eq_true, decide_eq_true_eq] at this ⊢
      omega
    rw [detect_script_unfold t hne (by omega), if_neg (by omega),
      if_pos (by omega)]
  · intro t h1 h2
    have hne : t ≠ [] := by rintro rfl; simp at h2
    have h4 := total_alpha_pos h2
    have htc : telugu_count t = 0 := by
      unfold telugu_count
      rw [List.length_eq_zero.mpr (List.filter_eq_nil_iff.mpr ?_)]
      intro c hc
      have := h1 c hc
      unfold inRange
      simp only [Bool.and_eq_true, decide_eq_true_eq]
      omega
    have hhc : hindi_count t = 0 := by
      unfold hindi_count
      rw [List.length_eq_zero.mpr (List.filter_eq_nil_iff.mpr ?_)]
      intro c hc
      have := h1 c hc
      unfold inRange
      simp only [Bool.and_eq_true, decide_eq_true_eq]
      omega
    have hlc : latin_count t = total_alpha t := by
      unfold latin_count total_alpha
      congr 1
      apply List.filter_congr
      intro c hc
      have := h1 c hc
      simp [this]
    rw [detect_script_unfold t hne (by omega), if_neg (by omega),
      if_neg (by omega), if_pos (by omega)]
  · intro t h0
    unfold detect_script
    rcases t with _ | ⟨c, t⟩
    · rfl
    · rw [if_neg (by simp), if_pos h0]

/-- C8 witness: the amended classification evaluated on concrete single-script
and non-alphabetic inputs. -/
theorem C8_witness :
    detect_script ("క".toList) = "Telugu" ∧
    detect_script ("नम".toList) = "Devanagari" ∧
    detect_script ("ab".toList) = "Latin" ∧
    detect_script ("12 ".toList) = "Unknown" :=
  ⟨C8_single_script_classification.1 _ (by decide) (by decide),
   C8_single_script_classification.2.1 _ (by decide) (by decide),
   C8_single_script_classification.2.2.1 _ (by decide) (by decide),
   C8_single_script_classification.2.2.2 _ (by decide)⟩

/-- C2 (amended): in plain mode, when the first output's classified script
equals the target's expected script, `translate` returns that output
unchanged with fallback flag `false` and issues exactly the one capability
call.  (The original claim's second disjunct — expected script `Unknown`
implies acceptance — is refuted by `C2_counterexample`.) -/
theorem C2_accept_on_script_match (cap : Capability) (text : PyStr)
    (src tgt : String) (raw : PyStr)
    (hmain : cap.main text (normLang src) (normLang tgt) = Except.ok raw)
    (hmatch : detect_script (pyStrip raw) = get_expected_script (normLang tgt)) :
    translate cap text src tgt =
      (Except.ok (pyStrip raw, false), [⟨text, normLang src, normLang tgt⟩]) := by
  simp only [translate, hmain]
  rw [if_pos hmatch]

/-- Capability stub for the C2 counterexample: the fine-tuned model answers in
Devanagari script, the fallback model answers `ok`. -/
def capC2 : Capability :=
  ⟨fun _ _ _ => Except.ok ("नमस".toList), fun _ _ _ => Except.ok ("ok".toList)⟩

/-- C2 counterexample: for target `fra_Latn` the expected script is `Unknown`,
yet the request is *not* accepted as-is: a Devanagari first output triggers
the reverse lookup and a second capability call, and the fallback flag comes
back `true` — contradicting "expected `Unknown` ⟹ first output, flag false,
no second call". -/
theorem C2_counterexample :
    get_expected_script (normLang "fra_Latn") = "Unknown" ∧
    (translate capC2 ("hi".toList) "eng_Latn" "fra_Latn").2.length = 2 ∧
    (translate capC2 ("hi".toList) "eng_Latn" "fra_Latn").1 =
      Except.ok ("ok".toList, true) :=
  ⟨rfl, rfl, rfl⟩

/-- Capability stub for the C2 witness: output with no alphabetic characters,
whose script classifies as `Unknown`. -/
def capC2w : Capability :=
  ⟨fun _ _ _ => Except.ok ("123".toList), fun _ _ _ => Except.ok []⟩

/-- C2 witness: a concrete accepted request (classified script equals the
expected script), settled by the amended theorem. -/
theorem C2_witness :
    translate capC2w ("hi".toList) "eng" "hin_Deva" =
      (Except.ok ("123".toList, false),
       [⟨"hi".toList, "eng_Latn", "hin_Deva"⟩]) :=
  C2_accept_on_script_match capC2w ("hi".toList) "eng" "hin_Deva"
    ("123".toList) rfl rfl

/-- Shared structural fact: every plain-mode request records the initial
capability call first, and at most one further call. -/
theorem translate_calls_shape (cap : Capability) (text : PyStr)
    (src tgt : String) :
    (translate cap text src tgt).2 = [⟨text, normLang src, normLang tgt⟩] ∨
    ∃ c2, (translate cap text src tgt).2 =
      [⟨text, normLang src, normLang tgt⟩, c2] := by
  simp only [translate]
  repeat' split
  all_goals first
    | exact Or.inl rfl
    | exact Or.inr ⟨_, rfl⟩

/-- C3: on a script mismatch whose reverse lookup yields a language different
from the target, plain-mode `translate` issues exactly one additional call —
translating the wrongly-scripted first output from the detected language to
the requested (normalized) target — and returns the second output with
fallback flag `true` regardless of the second output's script; moreover no
plain-mode request ever issues more than two capability calls. -/
theorem C3_fallback_retry_and_bound :
    (∀ (cap : Capability) (text : PyStr) (src tgt : String)
       (raw fraw : PyStr) (ds : String),
      cap.main text (normLang src) (normLang tgt) = Except.ok raw →
      detect_script (pyStrip raw) ≠ get_expected_script (normLang tgt) →
      script_to_lang (detect_script (pyStrip raw)) = some ds →
      ds ≠ normLang tgt →
      cap.fb (pyStrip raw) ds (normLang tgt) = Except.ok fraw →
      translate cap text src tgt =
        (Except.ok (pyStrip fraw, true),
         [⟨text, normLang src, normLang tgt⟩,
          ⟨pyStrip raw, ds, normLang tgt⟩])) ∧
    (∀ (cap : Capability) (text : PyStr) (src tgt : String),
      (translate cap text src tgt).2.length ≤ 2) := by
  constructor
  · intro cap text src tgt raw fraw ds hmain hmis hrev hne hfb
    simp only [translate, hmain]
    rw [if_neg hmis]
    simp only [hrev]
    rw [if_pos hne]
    simp only [hfb]
    split <;> rfl
  · intro cap text src tgt
    rcases translate_calls_shape cap text src tgt with h | ⟨c2, h⟩ <;>
      simp [h]

/-- Capability stub for the C3 witness: Telugu-script first output, then a
Latin fallback answer. -/
def capC3w : Capability :=
  ⟨fun _ _ _ => Except.ok ("నమ".toList), fun _ _ _ => Except.ok ("done".toList)⟩

/-- C3 witness: a concrete mismatching request on which the fallback retry
fires exactly once, settled by the claim's theorem. -/
theorem C3_witness :
    translate capC3w ("x".toList) "eng_Latn" "hin_Deva" =
      (Except.ok ("done".toList, true),
       [⟨"x".toList, "eng_Latn", "hin_Deva"⟩,
        ⟨"నమ".toList, "tel_Telu", "hin_Deva"⟩]) ∧
    (translate capC3w ("x".toList) "eng_Latn" "hin_Deva").2.length ≤ 2 :=
  ⟨C3_fallback_retry_and_bound.1 capC3w ("x".toList) "eng_Latn" "hin_Deva"
      ("నమ".toList) ("done".toList) "tel_Telu" rfl (by decide) rfl (by decide)
      rfl,
   C3_fallback_retry_and_bound.2 capC3w ("x".toList) "eng_Latn" "hin_Deva"⟩

/-- C4 (amended): a language code outside the alias table is not rejected —
there is no `UnknownLanguage` failure path.  The code passes through alias
normalization unchanged and the request still issues its first capability
call (so the call list is never empty). -/
theorem C4_unknown_code_passthrough (cap : Capability) (text : PyStr)
    (src tgt : String) (h : lang_map.lookup (pyLower tgt) = none) :
    normLang tgt = tgt ∧
    (translate cap text src tgt).2.head? =
      some ⟨text, normLang src, tgt⟩ ∧
    (translate cap text src tgt).2 ≠ [] := by
  have hn : normLang tgt = tgt := by unfold normLang; rw [h]; rfl
  rcases translate_calls_shape cap text src tgt with hc | ⟨c2, hc⟩ <;>
    rw [hn] at hc <;> simp [hc, hn]

/-- Capability stub for the C4 counterexample and witness. -/
def capC4 : Capability :=
  ⟨fun _ _ _ => Except.ok ("hello".toList), fun _ _ _ => Except.ok ("hola".toList)⟩

/-- C4 counterexample: `xyz_q` is neither an alias nor a recognized canonical
code, yet the request does not fail with an `UnknownLanguage` error and two
capability calls are made — contradicting "fails with `UnknownLanguage`, zero
calls". -/
theorem C4_counterexample :
    lang_map.lookup (pyLower "xyz_q") = none ∧
    script_map.lookup (pyLower "xyz_q") = none ∧
    translate capC4 ("hey".toList) "eng_Latn" "xyz_q" =
      (Except.ok ("hola".toList, true),
       [⟨"hey".toList, "eng_Latn", "xyz_q"⟩,
        ⟨"hello".toList, "eng_Latn", "xyz_q"⟩]) :=
  ⟨rfl, rfl, rfl⟩

/-- C4 witness: the amended pass-through behaviour at a concrete unknown
code. -/
theorem C4_witness :
    normLang "xyz_q" = "xyz_q" ∧
    (translate capC4 ("hey".toList) "eng_Latn" "xyz_q").2.head? =
      some ⟨"hey".toList, normLang "eng_Latn", "xyz_q"⟩ ∧
    (translate capC4 ("hey".toList) "eng_Latn" "xyz_q").2 ≠ [] :=
  C4_unknown_code_passthrough capC4 ("hey".toList) "eng_Latn" "xyz_q" rfl

/-! ## A small regex engine (idiom_detector.py patterns)

The catalog patterns use exactly: literal characters, `(?:a|b|…)` prioritized
alternation, `(?:…)?` greedy option, `\s+` and `[,\s]+` (greedy one-or-more
over a character class), and the negative lookahead `(?!\s+\w)`.  The matcher
below implements Python `re`'s backtracking semantics for these constructs:
leftmost match, alternatives tried in written order, greedy quantifiers, and
`re.IGNORECASE` on literals. -/

inductive RE where
  | eps : RE
  | ch : Char → RE
  | cls : (Char → Bool) → RE
  | seq : RE → RE → RE
  | alt : RE → RE → RE
  | opt : RE → RE
  | plus : (Char → Bool) → RE
  | nla : RE → RE

/-- Greedy repetition of a character class in continuation-passing style:
consume as many `p`-characters as possible, backtracking into the
continuation `k` (which returns the input remaining after the whole match). -/
def starCls (p : Char → Bool) (k : PyStr → Option PyStr) : PyStr → Option PyStr
  | [] => k []
  | c :: s =>
    if p c then
      match starCls p k s with
      | some r => some r
      | none => k (c :: s)
    else k (c :: s)

/-- Backtracking matcher: `matchM r s k` matches a prefix of `s` against `r`
and passes the remaining input to `k`, preferring longer/earlier alternatives
exactly as Python's engine does. -/
def matchM : RE → PyStr → (PyStr → Option PyStr) → Option PyStr
  | RE.eps, s, k => k s
  | RE.ch _, [], _ => none
  | RE.ch c, x :: s, k => if lowerAscii x = lowerAscii c then k s else none
  | RE.cls _, [], _ => none
  | RE.cls p, x :: s, k => if p x then k s else none
  | RE.seq a b, s, k => matchM a s (fun t => matchM b t k)
  | RE.alt a b, s, k =>
    match matchM a s k with
    | some r => some r
    | none => matchM b s k
  | RE.opt a, s, k =>
    match matchM a s k with
    | some r => some r
    | none => k s
  | RE.plus _, [], _ => none
  | RE.plus p, x :: s, k => if p x then starCls p k s else none
  | RE.nla a, s, k =>
    match matchM a s some with
    | some _ => none
    | none => k s

theorem starCls_le (p : Char → Bool) (k : PyStr → Option PyStr)
    (hk : ∀ u v, k u = some v → v.length ≤ u.length) :
    ∀ s t, starCls p k s = some t → t.length ≤ s.length := by
  intro s
  induction s with
  | nil => intro t h; exact hk [] t h
  | cons c s ih =>
    intro t h
    simp only [starCls] at h
    by_cases hp : p c
    · rw [if_pos hp] at h
      cases hs : starCls p k s with
      | some r =>
        rw [hs] at h
        cases h
        have := ih t hs
        simp; omega
      | none =>
        rw [hs] at h
        exact hk _ t h
    · rw [if_neg hp] at h
      exact hk _ t h

theorem matchM_le (r : RE) : ∀ (s : PyStr) (k : PyStr → Option PyStr),
    (∀ u v, k u = some v → v.length ≤ u.length) →
    ∀ t, matchM r s k = some t → t.length ≤ s.length := by
  induction r with
  | eps => intro s k hk t h; exact hk s t h
  | ch c =>
    intro s k hk t h
    cases s with
    | nil => exact absurd h (by simp [matchM])
    | cons x s =>
      simp only [matchM] at h
      by_cases hx : lowerAscii x = lowerAscii c
      · rw [if_pos hx] at h
        have := hk s t h
        simp; omega
      · rw [if_neg hx] at h; cases h
  | cls p =>
    intro s k hk t h
    cases s with
    | nil => exact absurd h (by simp [matchM])
    | cons x s =>
      simp only [matchM] at h
      by_cases hx : p x
      · rw [if_pos hx] at h
        have := hk s t h
        simp; omega
      · rw [if_neg hx] at h; cases h
  | seq a b iha ihb =>
    intro s k hk t h
    exact iha s _ (fun u v hv => ihb u k hk v hv) t h
  | alt a b iha ihb =>
    intro s k hk t h
    simp only [matchM] at h
    cases ha : matchM a s k with
    | some r => rw [ha] at h; cases h; exact iha s k hk t ha
    | none => rw [ha] at h; exact ihb s k hk t h
  | opt a iha =>
    intro s k hk t h
    simp only [matchM] at h
    cases ha : matchM a s k with
    | some r => rw [ha] at h; cases h; exact iha s k hk t ha
    | none => rw [ha] at h; exact hk s t h
  | plus p =>
    intro s k hk t h
    cases s with
    | nil => exact absurd h (by simp [matchM])
    | cons x s =>
      simp only [matchM] at h
      by_cases hx : p x
      · rw [if_pos hx] at h
        have := starCls_le p k hk s t h
        simp; omega
      · rw [if_neg hx] at h; cases h
  | nla a iha =>
    intro s k hk t h
    simp only [matchM] at h
    cases ha : matchM a s some with
    | some r => rw [ha] at h; cases h
    | none => rw [ha] at h; exact hk s t h

/-- `re.finditer`: scan left to right; at each position try an anchored match;
on success record `(start, end, matched text)` and continue scanning after the
match (Python advances one character past an empty match).  Structural
recursion on a fuel bounded by the input length; by `matchM_le` every step
consumes at least one character, so the fuel of `findIter` below never runs
out. -/
def findIterF (r : RE) : Nat → PyStr → Nat → List (Nat × Nat × PyStr)
  | 0, _, _ => []
  | _ + 1, [], _ => []
  | fuel + 1, c :: s, pos =>
    match matchM r (c :: s) some with
    | some rem =>
      if (c :: s).length - rem.length = 0 then
        (pos, pos, ([] : PyStr)) :: findIterF r fuel s (pos + 1)
      else
        (pos, pos + ((c :: s).length - rem.length),
          (c :: s).take ((c :: s).length - rem.length)) ::
          findIterF r fuel rem (pos + ((c :: s).length - rem.length))
    | none => findIterF r fuel s (pos + 1)

/-- `re.finditer` with the fuel instantiated. -/
def findIter (r : RE) (s : PyStr) (pos : Nat) : List (Nat × Nat × PyStr) :=
  findIterF r (s.length + 1) s pos

/-! ## Pattern combinators and the idiom catalogs -/

/-- Sequencing a list of regexes. -/
def reOfList : List RE → RE
  | [] => RE.eps
  | [r] => r
  | r :: rs => RE.seq r (reOfList rs)

/-- A literal string (each character matched case-insensitively). -/
def reStr (s : String) : RE := reOfList (s.toList.map RE.ch)

/-- Prioritized alternation of a list of regexes, in written order. -/
def reAlts : List RE → RE
  | [] => RE.eps
  | [r] => r
  | r :: rs => RE.alt r (reAlts rs)

/-- `(?:w1|w2|…)` over literal words. -/
def altStrs (l : List String) : RE := reAlts (l.map reStr)

/-- `\s+`. -/
def ws1 : RE := RE.plus pyIsSpace

/-- Literal words joined by `\s+`. -/
def wordChain (l : List String) : RE :=
  reOfList (List.intersperse ws1 (l.map reStr))

/-- The trailing negative lookahead `(?!\s+\w)` used for boundary control. -/
def nlw : RE := RE.nla (RE.seq ws1 (RE.cls pyIsWord))

/-- The apostrophe character (U+0027), written by codepoint. -/
def apos : Char := Char.ofNat 39

/-- The canonical form `"don't count your chickens"`. -/
def chickensCanon : String :=
  String.mk ("don".toList ++ apos :: "t count your chickens".toList)

/-- The canonical form `"pull someone's leg"`. -/
def pullLegCanon : String :=
  String.mk ("pull someone".toList ++ apos :: "s leg".toList)

/-- The canonical form `"where there's smoke, there's fire"`. -/
def smokeCanon : String :=
  String.mk ("where there".toList ++ apos :: "s smoke, there".toList ++
    apos :: "s fire".toList)

/-- `IdiomDetector.english_idioms`: the 25 English patterns, in the source
dictionary's insertion order, each paired with its canonical form. -/
def english_idioms : List (RE × String) :=
  [(reOfList [altStrs ["break", "breaking", "broke", "broken"], ws1,
      reStr "the", ws1, reStr "ice", nlw], "break the ice"),
   (reOfList [altStrs ["bite", "biting", "bit", "bitten"], ws1,
      reStr "the", ws1, reStr "bullet", nlw], "bite the bullet"),
   (reOfList [altStrs ["spill", "spilling", "spilled", "spilt"], ws1,
      reStr "the", ws1, reStr "beans", nlw], "spill the beans"),
   (reOfList [altStrs ["hit", "hitting", "hits"], ws1, reStr "the", ws1,
      RE.alt (wordChain ["nail", "on", "the", "head"]) (reStr "jackpot")],
    "hit the nail on the head"),
   (reOfList [altStrs ["call", "calling", "called"], ws1, reStr "it", ws1,
      reStr "a", ws1, reStr "day", nlw], "call it a day"),
   (reOfList [altStrs ["cut", "cutting", "cuts"], ws1,
      RE.alt (reStr "corners") (wordChain ["to", "the", "chase"])],
    "cut corners"),
   (reOfList [altStrs ["piece", "pieces"], ws1, reStr "of", ws1,
      reStr "cake", nlw], "piece of cake"),
   (reOfList [altStrs ["cost", "costs", "costing"], ws1, reStr "a",
      RE.opt (RE.ch 'n'), ws1, reStr "arm", ws1, reStr "and", ws1,
      reStr "a", ws1, reStr "leg", nlw], "cost an arm and a leg"),
   (reOfList [altStrs ["beat", "beating", "beats"], ws1, reStr "around",
      ws1, reStr "the", ws1, reStr "bush", nlw], "beat around the bush"),
   (reOfList [wordChain ["out", "of", "the", "blue"], nlw], "out of the blue"),
   (reOfList [RE.alt (reStr "once") (wordChain ["one", "time"]), ws1,
      wordChain ["in", "a", "blue", "moon"], nlw], "once in a blue moon"),
   (reOfList [altStrs ["throw", "throwing", "threw", "thrown"], ws1,
      reStr "in", ws1, reStr "the", ws1, reStr "towel", nlw],
    "throw in the towel"),
   (reOfList [altStrs ["let", "letting"], ws1,
      wordChain ["the", "cat", "out", "of", "the", "bag"], nlw],
    "let the cat out of the bag"),
   (reOfList [altStrs ["cross", "crossing", "crossed"], ws1,
      wordChain ["that", "bridge", "when"], ws1,
      altStrs ["we", "you", "they"], ws1, altStrs ["come", "get"], ws1,
      wordChain ["to", "it"]], "cross that bridge"),
   (reOfList [altStrs ["hold", "holding", "held"], ws1,
      altStrs ["your", "my", "their"], ws1, reStr "horses", nlw],
    "hold your horses"),
   (reOfList [altStrs ["jump", "jumping", "jumped"], ws1, reStr "the", ws1,
      reStr "gun", nlw], "jump the gun"),
   (reOfList [altStrs ["miss", "missing", "missed"], ws1, reStr "the", ws1,
      reStr "boat", nlw], "miss the boat"),
   (reOfList [altStrs ["pull", "pulling", "pulled"], ws1,
      reAlts [reOfList [reStr "someone", RE.ch apos, RE.ch 's'],
        reStr "your", reStr "my"], ws1, reStr "leg", nlw], pullLegCanon),
   (RE.alt (wordChain ["under", "the", "weather"])
      (wordChain ["feeling", "under", "the", "weather"]),
    "under the weather"),
   (reOfList [wordChain ["the", "ball", "is", "in"], ws1,
      altStrs ["your", "my", "their"], ws1, reStr "court"],
    "ball in your court"),
   (reOfList [RE.opt (RE.seq (reStr "a") ws1), reStr "blessing", ws1,
      reStr "in", ws1, reStr "disguise", nlw], "blessing in disguise"),
   (reOfList [RE.alt (reOfList [reStr "don", RE.ch apos, RE.ch 't'])
        (wordChain ["do", "not"]), ws1, altStrs ["count", "counting"], ws1,
      altStrs ["your", "my", "their"], ws1, reStr "chickens", ws1,
      altStrs ["before", "until"], ws1, wordChain ["they", "hatch"]],
    chickensCanon),
   (reOfList [reStr "action", RE.opt (RE.ch 's'), ws1, reStr "speak",
      RE.opt (RE.ch 's'), ws1, reStr "louder", ws1, reStr "than", ws1,
      reStr "word", RE.opt (RE.ch 's')], "actions speak louder than words"),
   (reOfList [RE.opt (RE.seq (reStr "a") ws1), reStr "bird", ws1,
      reStr "in", ws1, RE.opt (RE.seq (reStr "the") ws1), reStr "hand",
      ws1, reStr "is", ws1, reStr "worth", ws1, reStr "two", ws1,
      reStr "in", ws1, reStr "the", ws1, reStr "bush"],
    "a bird in the hand"),
   (reOfList [reStr "where", ws1, reStr "there", RE.opt (RE.ch apos),
      RE.ch 's', ws1, reStr "smoke", RE.opt (RE.ch ','), ws1,
      reStr "there", RE.opt (RE.ch apos), RE.ch 's', ws1, reStr "fire"],
    smokeCanon)]

/-- `IdiomDetector.telugu_idioms`. -/
def telugu_idioms : List (RE × String) :=
  [(wordChain ["కతికితే", "అతకదు"], "కతికితే అతకదు"),
   (wordChain ["ఎలుకకు", "పిల్లి", "సాక్షి"], "ఎలుకకు పిల్లి సాక్షి"),
   (wordChain ["ఉల్లి", "పది", "తల్లుల", "పెట్టు"], "ఉల్లి పది తల్లుల పెట్టు"),
   (wordChain ["అడవి", "కాచిన", "వెన్నెల"], "అడవి కాచిన వెన్నెల"),
   (reOfList [reStr "పైన", ws1, reStr "పటారం",
      RE.plus (fun c => c == ',' || pyIsSpace c), reStr "లోన", ws1,
      reStr "లొటారం"], "పైన పటారం, లోన లొటారం")]

/-- `IdiomDetector.hindi_idioms`. -/
def hindi_idioms : List (RE × String) :=
  [(wordChain ["अंधों", "में", "काना", "राजा"], "अंधों में काना राजा"),
   (wordChain ["जैसा", "देश", "वैसा", "भेष"], "जैसा देश वैसा भेष"),
   (wordChain ["घर", "की", "मुर्गी", "दाल", "बराबर"], "घर की मुर्गी दाल बराबर")]

/-! ## `IdiomDetector` -/

/-- One detected idiom occurrence: canonical form, start/end offsets and the
literal matched substring (the source dict's `end` key is `stop` here). -/
structure Span where
  idiom : String
  start : Nat
  stop : Nat
  original : PyStr
deriving DecidableEq, Repr

/-- Literal blue objects rejected after "out of the blue". -/
def blue_objects : List PyStr :=
  (["tub", "car", "house", "box", "bag", "shirt", "sky", "ocean", "water",
    "bottle", "container", "room", "building", "truck"] : List String).map
    String.toList

/-- Literal-cake context words for "piece of cake". -/
def cake_words : List PyStr :=
  (["chocolate", "vanilla", "birthday", "wedding", "frosting", "batter",
    "slice"] : List String).map String.toList

/-- Literal-ice context words for "break the ice". -/
def ice_words : List PyStr :=
  (["frozen", "cold", "winter", "skating", "hockey", "cubes",
    "freezer"] : List String).map String.toList

/-- `IdiomDetector._validate_idiom_context`: inspect ten words of context on
each side; idiom-specific literal-usage rules for three canonical forms;
every other idiom is accepted by default. -/
def validate_idiom_context (text : PyStr) (start stop : Nat)
    (idiom : String) : Bool :=
  -- the source also computes `matched_text = match.group(0).lower()`, unused
  let words_before := ((pySplit (text.take start)).reverse.take 10).reverse
  let words_after := (pySplit (text.drop stop)).take 10
  if idiom = "out of the blue" then
    match words_after with
    | [] => true
    | next_word :: _ => !(blue_objects.contains (pyLowerStr next_word))
  else if idiom = "piece of cake" then
    match words_after with
    | [] => true
    | _ :: _ =>
      !(cake_words.any (fun w =>
          containsSub w (pyLowerStr (joinSpace (words_before ++ words_after)))))
  else if idiom = "break the ice" then
    !(ice_words.any (fun w =>
        containsSub w (pyLowerStr (joinSpace (words_before ++ words_after)))))
  else true

/-- Stable insertion of a span into a start-sorted list (equal keys keep the
existing elements first, matching Python's stable `list.sort`). -/
def insertSpan (sp : Span) : List Span → List Span
  | [] => [sp]
  | b :: l => if sp.start ≤ b.start then sp :: b :: l else b :: insertSpan sp l

/-- Stable sort by start offset, extensionally equal to Python's stable
`idioms_found.sort(key=lambda x: x['start'])`. -/
def sortSpans : List Span → List Span
  | [] => []
  | a :: l => insertSpan a (sortSpans l)

/-- The pattern loop of `detect_idioms`: for each catalog pattern (in catalog
order) take every `finditer` match that survives contextual validation. -/
def idiom_matches (patterns : List (RE × String)) (text : PyStr) : List Span :=
  patterns.foldl (fun acc pc =>
    acc ++ ((findIter pc.1 text 0).filterMap (fun m =>
      if validate_idiom_context text m.1 m.2.1 pc.2 then
        some ⟨pc.2, m.1, m.2.1, m.2.2⟩
      else none))) []

/-- `IdiomDetector.detect_idioms`: select the language's catalog (unknown
languages return the empty list), collect validated matches, sort by start. -/
def detect_idioms (text : PyStr) (language : String) : List Span :=
  let patterns : Option (List (RE × String)) :=
    if language = "eng_Latn" ∨ language = "eng" then some english_idioms
    else if language = "tel_Telu" ∨ language = "tel" then some telugu_idioms
    else if language = "hin_Deva" ∨ language = "hin" then some hindi_idioms
    else none
  match patterns with
  | none => []
  | some ps => sortSpans (idiom_matches ps text)

/-! ## `IdiomDetector.split_sentence_with_idioms` -/

/-- A sentence part: plain text or an idiom occurrence (literal content plus
canonical form). -/
inductive Part where
  | text (content : PyStr)
  | idiom (content : PyStr) (canonical : String)
deriving DecidableEq, Repr

/-- The content string of a part. -/
def Part.content : Part → PyStr
  | Part.text c => c
  | Part.idiom c _ => c

/-- The walking loop of `split_sentence_with_idioms`: emit the stripped text
before each span when non-empty, then the idiom, advancing the cursor to the
span's end; finally the stripped remainder. -/
def splitGo (text : PyStr) : Nat → List Span → List Part
  | current_pos, [] =>
    if current_pos < text.length then
      let after_text := pyStrip (text.drop current_pos)
      if after_text ≠ [] then [Part.text after_text] else []
    else []
  | current_pos, sp :: rest =>
    (if current_pos < sp.start then
      let before_text := pyStrip ((text.take sp.start).drop current_pos)
      if before_text ≠ [] then [Part.text before_text] else []
     else []) ++
    Part.idiom sp.original sp.idiom :: splitGo text sp.stop rest

/-- `IdiomDetector.split_sentence_with_idioms`: an empty span list yields the
whole text as one untrimmed plain part; otherwise walk the spans. -/
def split_sentence_with_idioms (text : PyStr) (idioms : List Span) :
    List Part :=
  match idioms with
  | [] => [Part.text text]
  | _ => splitGo text 0 idioms

/-! ## `ContextualTranslator` -/

/-- One per-idiom translation record (`idiom_translations` entries of the
response metadata): original substring, canonical form and chosen
translation.  The source records no strategy field. -/
structure IdiomRec where
  original : PyStr
  canonical : String
  translation : PyStr
deriving DecidableEq, Repr

/-- `ContextualTranslator.idiom_translations`: the curated
(source, target) → canonical → translation table. -/
def idiom_translations :
    List ((String × String) × List (String × PyStr)) :=
  [(("eng_Latn", "tel_Telu"),
    [("piece of cake", "చాలా సులువు".toList),
     ("out of the blue", "అనుకోకుండా".toList),
     ("break the ice", "మాట్లాడటం మొదలుపెట్టడం".toList),
     ("bite the bullet", "కష్టమైన పని చేయడం".toList),
     ("spill the beans", "రహస్యం చెప్పడం".toList),
     ("call it a day", "పని ముగించడం".toList),
     ("hit the nail on the head", "సరిగ్గా చెప్పడం".toList),
     ("cost an arm and a leg", "చాలా ఖరీదు".toList),
     ("once in a blue moon", "అరుదుగా".toList),
     ("throw in the towel", "వదులుకోవడం".toList)]),
   (("eng_Latn", "hin_Deva"),
    [("piece of cake", "बहुत आसान".toList),
     ("out of the blue", "अचानक से".toList),
     ("break the ice", "बातचीत शुरू करना".toList),
     ("bite the bullet", "कठिन काम करना".toList),
     ("spill the beans", "राज़ खोलना".toList),
     ("call it a day", "काम खत्म करना".toList),
     ("hit the nail on the head", "बिलकुल सही कहना".toList),
     ("cost an arm and a leg", "बहुत महंगा".toList),
     ("once in a blue moon", "कभी कभार".toList),
     ("throw in the towel", "हार मान लेना".toList)]),
   (("tel_Telu", "eng_Latn"),
    [("కతికితే అతకదు",
      "if you stir it, it won".toList ++ apos :: "t stick".toList),
     ("ఎలుకకు పిల్లి సాక్షి", "cat as witness for the mouse".toList)]),
   (("hin_Deva", "eng_Latn"),
    [("अंधों में काना राजा",
      "in the land of the blind, the one-eyed man is king".toList),
     ("जैसा देश वैसा भेष", "when in Rome, do as the Romans do".toList)])]

/-- The curated lookup guard of `translate_with_context`:
`idiom_key in idiom_translations and canonical in idiom_translations[key]`. -/
def curated_lookup (source_lang target_lang canonical : String) :
    Option PyStr :=
  match idiom_translations.lookup (source_lang, target_lang) with
  | none => none
  | some tbl => tbl.lookup canonical

/-- The per-segment dispatch in `translate_with_context`'s loop body: plain
text goes to the capability; an idiom first tries the curated table and
otherwise sends its canonical form (not the literal text) to the capability.
Returns the translated content, the idiom records contributed, and the
capability calls made. -/
def dispatchSegment (cap : Capability) (source_lang target_lang : String) :
    Part → Except PyErr (PyStr × List IdiomRec) × List Call
  | Part.text content =>
    match translate cap content source_lang target_lang with
    | (Except.error e, calls) => (Except.error e, calls)
    | (Except.ok (tr, _), calls) => (Except.ok (tr, []), calls)
  | Part.idiom content canonical =>
    match curated_lookup source_lang target_lang canonical with
    | some idiom_trans =>
      (Except.ok (idiom_trans, [⟨content, canonical, idiom_trans⟩]), [])
    | none =>
      match translate cap canonical.toList source_lang target_lang with
      | (Except.error e, calls) => (Except.error e, calls)
      | (Except.ok (idiom_trans, _), calls) =>
        (Except.ok (idiom_trans, [⟨content, canonical, idiom_trans⟩]), calls)

/-- The `for part in parts` loop of `translate_with_context`: translate the
segments in order, accumulating translated contents and idiom records; a
capability failure aborts the remainder of the loop and propagates. -/
def translateParts (cap : Capability) (source_lang target_lang : String) :
    List Part → Except PyErr (List PyStr × List IdiomRec) × List Call
  | [] => (Except.ok ([], []), [])
  | p :: rest =>
    match dispatchSegment cap source_lang target_lang p with
    | (Except.error e, calls) => (Except.error e, calls)
    | (Except.ok (tr, recs), calls) =>
      match translateParts cap source_lang target_lang rest with
      | (Except.error e, calls2) => (Except.error e, calls ++ calls2)
      | (Except.ok (ts, rs), calls2) =>
        (Except.ok (tr :: ts, recs ++ rs), calls ++ calls2)

/-- The punctuation set `'.,!?;:'` of `_join_parts_intelligently`. -/
def punct_chars : List Char := ['.', ',', '!', '?', ';', ':']

/-- The accumulation loop of `_join_parts_intelligently`.  For English
targets the guard evaluates `part[0]` after confirming `result` is non-empty
and its last character is not punctuation; `part[0]` on an empty segment
raises `IndexError`, modelled as `none`. -/
def joinLoop (target_lang : String) : PyStr → List PyStr → Option PyStr
  | result, [] => some result
  | result, part :: rest =>
    if target_lang = "eng_Latn" ∨ target_lang = "eng" then
      match result.getLast? with
      | none => joinLoop target_lang (result ++ part) rest
      | some lastc =>
        if punct_chars.contains lastc then
          joinLoop target_lang (result ++ part) rest
        else
          match part with
          | [] => none
          | c :: _ =>
            if punct_chars.contains c then
              joinLoop target_lang (result ++ part) rest
            else joinLoop target_lang (result ++ ' ' :: part) rest
    else
      if result ≠ [] ∧ part ≠ [] then
        joinLoop target_lang (result ++ ' ' :: part) rest
      else joinLoop target_lang (result ++ part) rest

/-- `ContextualTranslator._join_parts_intelligently`: empty input yields the
empty string; otherwise fold the loop from the first part and strip the
result. -/
def join_parts (parts : List PyStr) (target_lang : String) : Option PyStr :=
  match parts with
  | [] => some []
  | p :: rest => (joinLoop target_lang p rest).map pyStrip

/-- Response metadata of `translate_with_context`: the no-idiom path returns
the `method='direct'` dictionary (with `idioms_detected=0` and the plain
translate's fallback flag), the idiom path the `method='contextual'`
dictionary. -/
inductive CtxMeta where
  | direct (used_fallback : Bool)
  | contextual (idioms_detected : Nat) (idiom_details : List IdiomRec)
      (parts_translated : Nat)
deriving DecidableEq, Repr

/-- `ContextualTranslator.translate_with_context`: detect idioms; with none,
translate the whole text plainly; otherwise split, translate each segment,
and rejoin.  Failures (capability errors, the join's `IndexError`)
propagate and abort the request. -/
def translate_with_context (cap : Capability) (text : PyStr)
    (source_lang target_lang : String) :
    Except PyErr (PyStr × CtxMeta) × List Call :=
  let idioms_found := detect_idioms text source_lang
  match idioms_found with
  | [] =>
    match translate cap text source_lang target_lang with
    | (Except.error e, calls) => (Except.error e, calls)
    | (Except.ok (translation, used_fallback), calls) =>
      (Except.ok (translation, CtxMeta.direct used_fallback), calls)
  | _ =>
    let parts := split_sentence_with_idioms text idioms_found
    match translateParts cap source_lang target_lang parts with
    | (Except.error e, calls) => (Except.error e, calls)
    | (Except.ok (translated_parts, _recs), calls) =>
      match join_parts translated_parts target_lang with
      | none => (Except.error PyErr.indexError, calls)
      | some final_translation =>
        (Except.ok (final_translation,
          CtxMeta.contextual idioms_found.length _recs parts.length), calls)

/-! ## Claim theorems for the contextual pipeline -/

theorem translateParts_error_of_mem (cap : Capability) (src tgt : String)
    (p : Part) (e : PyErr)
    (hfail : (dispatchSegment cap src tgt p).1 = Except.error e) :
    ∀ parts : List Part, p ∈ parts →
    ∃ e', (translateParts cap src tgt parts).1 = Except.error e' := by
  intro parts
  induction parts with
  | nil => intro h; simp at h
  | cons q rest ih =>
    intro hmem
    rcases hd : dispatchSegment cap src tgt q with ⟨r, calls⟩
    rcases r with e2 | ⟨tr, recs⟩
    · exact ⟨e2, by simp only [translateParts, hd]⟩
    · rcases List.mem_cons.mp hmem with rfl | hmem2
      · rw [hd] at hfail; simp at hfail
      · obtain ⟨e', he⟩ := ih hmem2
        rcases ht : translateParts cap src tgt rest with ⟨r2, calls2⟩
        rw [ht] at he
        rcases r2 with e3 | ok2
        · exact ⟨e3, by simp only [translateParts, hd, ht]⟩
        · simp at he

/-- C5 (amended): a capability failure on any single segment in contextual
mode is *not* recovered: there is no try/except around the per-segment
translation, so the error propagates and the whole request aborts with no
partial result (and the per-idiom records carry no strategy field at all). -/
theorem C5_segment_failure_aborts (cap : Capability) (text : PyStr)
    (src tgt : String) (p : Part) (e : PyErr)
    (hne : detect_idioms text src ≠ [])
    (hmem : p ∈ split_sentence_with_idioms text (detect_idioms text src))
    (hfail : (dispatchSegment cap src tgt p).1 = Except.error e) :
    ∃ e', (translate_with_context cap text src tgt).1 = Except.error e' := by
  obtain ⟨e', he⟩ :=
    translateParts_error_of_mem cap src tgt p e hfail
      (split_sentence_with_idioms text (detect_idioms text src)) hmem
  simp only [translate_with_context]
  rcases hdi : detect_idioms text src with _ | ⟨sp, spans⟩
  · exact absurd hdi hne
  · rw [hdi] at he
    rcases ht : translateParts cap src tgt
        (split_sentence_with_idioms text (sp :: spans)) with ⟨r2, calls2⟩
    rw [ht] at he
    rcases r2 with e3 | ok2
    · exact ⟨e3, by simp only [ht]⟩
    · simp at he

/-- Capability stub for C5: fails exactly on the plain segment `"xy"`,
succeeds (echoes) on everything else. -/
def capC5 : Capability :=
  ⟨fun t _ _ => if t = ("xy".toList) then Except.error () else Except.ok t,
   fun t _ _ => Except.ok t⟩

/-- C5 counterexample: one segment's capability failure aborts the whole
contextual request with a propagated error — no empty-string substitution, no
result for the remaining segments, no failed-strategy record. -/
theorem C5_counterexample :
    (detect_idioms ("xy break the ice".toList) "eng_Latn").length = 1 ∧
    split_sentence_with_idioms ("xy break the ice".toList)
        (detect_idioms ("xy break the ice".toList) "eng_Latn") =
      [Part.text ("xy".toList),
       Part.idiom ("break the ice".toList) "break the ice"] ∧
    (translate_with_context capC5 ("xy break the ice".toList) "eng_Latn"
        "hin_Deva").1 = Except.error PyErr.capFailure :=
  ⟨rfl, rfl, rfl⟩

/-- C5 witness: the amended abort behaviour at the concrete failing
request. -/
theorem C5_witness :
    ∃ e', (translate_with_context capC5 ("xy break the ice".toList)
      "eng_Latn" "hin_Deva").1 = Except.error e' :=
  C5_segment_failure_aborts capC5 ("xy break the ice".toList) "eng_Latn"
    "hin_Deva" (Part.text ("xy".toList)) PyErr.capFailure
    (by decide) (by decide) rfl

/-- C6: curated lookup takes precedence — a curated (canonical, src, tgt)
entry is returned verbatim with zero capability calls; an absent entry sends
the canonical form (not the literal matched text) to the capability, whose
first call carries exactly the canonical form's text. -/
theorem C6_curated_precedence :
    (∀ (cap : Capability) (src tgt : String) (content : PyStr)
       (canonical : String) (t : PyStr),
      curated_lookup src tgt canonical = some t →
      dispatchSegment cap src tgt (Part.idiom content canonical) =
        (Except.ok (t, [⟨content, canonical, t⟩]), [])) ∧
    (∀ (cap : Capability) (src tgt : String) (content : PyStr)
       (canonical : String),
      curated_lookup src tgt canonical = none →
      (dispatchSegment cap src tgt (Part.idiom content canonical)).2.head? =
        some ⟨canonical.toList, normLang src, normLang tgt⟩ ∧
      (dispatchSegment cap src tgt (Part.idiom content canonical)).2 ≠ []) := by
  constructor
  · intro cap src tgt content canonical t h
    simp only [dispatchSegment, h]
  · intro cap src tgt content canonical h
    have h2 : (dispatchSegment cap src tgt (Part.idiom content canonical)).2 =
        (translate cap canonical.toList src tgt).2 := by
      simp only [dispatchSegment, h]
      rcases ht : translate cap canonical.toList src tgt with ⟨r, calls⟩
      rcases r with e | ⟨tr, fb⟩ <;> rfl
    rw [h2]
    rcases translate_calls_shape cap canonical.toList src tgt with hc | ⟨c2, hc⟩ <;>
      · rw [hc]
        exact ⟨rfl, by simp⟩

/-- Capability stub (echo) for the C6 witness. -/
def capC6 : Capability :=
  ⟨fun t _ _ => Except.ok t, fun t _ _ => Except.ok t⟩

/-- C6 witness: the curated entry ("piece of cake", eng_Latn, hin_Deva)
returns the curated Hindi string with no calls; the uncurated "jump the gun"
goes to the capability with the canonical form as the call text. -/
theorem C6_witness :
    dispatchSegment capC6 "eng_Latn" "hin_Deva"
      (Part.idiom ("piece of cake".toList) "piece of cake") =
      (Except.ok ("बहुत आसान".toList,
        [⟨"piece of cake".toList, "piece of cake", "बहुत आसान".toList⟩]), []) ∧
    (dispatchSegment capC6 "eng_Latn" "hin_Deva"
      (Part.idiom ("jumped the gun".toList) "jump the gun")).2.head? =
      some ⟨"jump the gun".toList, normLang "eng_Latn", normLang "hin_Deva"⟩ :=
  ⟨C6_curated_precedence.1 capC6 "eng_Latn" "hin_Deva" ("piece of cake".toList)
      "piece of cake" ("बहुत आसान".toList) rfl,
   (C6_curated_precedence.2 capC6 "eng_Latn" "hin_Deva"
      ("jumped the gun".toList) "jump the gun" rfl).1⟩

theorem mem_insertSpan {x sp : Span} : ∀ {l : List Span},
    x ∈ insertSpan sp l ↔ x = sp ∨ x ∈ l := by
  intro l
  induction l with
  | nil => simp [insertSpan]
  | cons b t ih =>
    by_cases hc : sp.start ≤ b.start
    · simp [insertSpan, hc, ih]
    · simp [insertSpan, hc, ih]
      tauto

theorem pairwise_insertSpan (sp : Span) : ∀ {l : List Span},
    List.Pairwise (fun a b => a.start ≤ b.start) l →
    List.Pairwise (fun a b => a.start ≤ b.start) (insertSpan sp l) := by
  intro l
  induction l with
  | nil => intro _; simp [insertSpan]
  | cons b t ih =>
    intro h
    rw [List.pairwise_cons] at h
    obtain ⟨hb, ht⟩ := h
    by_cases hc : sp.start ≤ b.start
    · simp only [insertSpan, if_pos hc]
      rw [List.pairwise_cons]
      refine ⟨?_, List.pairwise_cons.mpr ⟨hb, ht⟩⟩
      intro x hx
      rcases List.mem_cons.mp hx with rfl | hx2
      · exact hc
      · exact le_trans hc (hb x hx2)
    · simp only [insertSpan, if_neg hc]
      rw [List.pairwise_cons]
      refine ⟨?_, ih ht⟩
      intro x hx
      rcases mem_insertSpan.mp hx with rfl | hx2
      · omega
      · exact hb x hx2

theorem pairwise_sortSpans : ∀ l : List Span,
    List.Pairwise (fun a b => a.start ≤ b.start) (sortSpans l) := by
  intro l
  induction l with
  | nil => simp [sortSpans]
  | cons a t ih => exact pairwise_insertSpan a ih

/-- C7 (amended): the span list returned by `detect_idioms` is always sorted
by start offset — but its spans are *not* pairwise non-overlapping (see
`C7_counterexample`): matches of different catalog patterns are never checked
against each other. -/
theorem C7_detect_idioms_sorted (text : PyStr) (language : String) :
    List.Pairwise (fun a b => a.start ≤ b.start)
      (detect_idioms text language) := by
  simp only [detect_idioms]
  split
  · exact List.Pairwise.nil
  · exact pairwise_sortSpans _

/-- C7 counterexample: on `"jump the gunder the weather"` the detector
returns the spans `[0, 12)` ("jump the gun", matched inside "gunder") and
`[10, 27)` ("under the weather") — sorted, but overlapping (10 < 12). -/
theorem C7_counterexample :
    detect_idioms ("jump the gunder the weather".toList) "eng_Latn" =
      [⟨"jump the gun", 0, 12, "jump the gun".toList⟩,
       ⟨"under the weather", 10, 27, "under the weather".toList⟩] ∧
    (10 : Nat) < 12 :=
  ⟨rfl, by decide⟩

/-- C7 witness: the sortedness theorem instantiated at the overlapping
counterexample text. -/
theorem C7_witness :
    List.Pairwise (fun a b => a.start ≤ b.start)
      (detect_idioms ("jump the gunder the weather".toList) "eng_Latn") :=
  C7_detect_idioms_sorted ("jump the gunder the weather".toList) "eng_Latn"

theorem joinLoop_isSome_of_ne_eng (tgt : String)
    (h1 : tgt ≠ "eng_Latn") (h2 : tgt ≠ "eng") :
    ∀ (parts : List PyStr) (result : PyStr),
    (joinLoop tgt result parts).isSome := by
  intro parts
  induction parts with
  | nil => intro result; simp [joinLoop]
  | cons part rest ih =>
    intro result
    simp only [joinLoop, if_neg (by tauto : ¬(tgt = "eng_Latn" ∨ tgt = "eng"))]
    split
    · exact ih _
    · exact ih _

theorem joinLoop_isSome_of_nonempty (tgt : String) :
    ∀ (parts : List PyStr) (result : PyStr), (∀ p ∈ parts, p ≠ []) →
    (joinLoop tgt result parts).isSome := by
  intro parts
  induction parts with
  | nil => intro result _; simp [joinLoop]
  | cons part rest ih =>
    intro result hall
    have hrest : ∀ p ∈ rest, p ≠ [] := fun p hp => hall p (by simp [hp])
    have hpart : part ≠ [] := hall part (by simp)
    rcases part with _ | ⟨c, cs⟩
    · exact absurd rfl hpart
    · simp only [joinLoop]
      repeat' split
      all_goals exact ih _ hrest

/-- C10 (amended): `_join_parts_intelligently` is total for every non-English
target language, and for English targets whenever no segment is the empty
string; the empty list yields the empty string.  It is *not* total for
English targets with empty segments (see `C10_counterexample`): the guard
evaluates `part[0]`, raising `IndexError`. -/
theorem C10_join_totality :
    (∀ (tgt : String) (parts : List PyStr),
      tgt ≠ "eng_Latn" → tgt ≠ "eng" → (join_parts parts tgt).isSome) ∧
    (∀ (tgt : String) (parts : List PyStr),
      (∀ p ∈ parts, p ≠ []) → (join_parts parts tgt).isSome) ∧
    (∀ tgt : String, join_parts [] tgt = some []) := by
  refine ⟨?_, ?_, fun tgt => rfl⟩
  · intro tgt parts h1 h2
    rcases parts with _ | ⟨p, rest⟩
    · simp [join_parts]
    · simp only [join_parts]
      have := joinLoop_isSome_of_ne_eng tgt h1 h2 rest p
      rcases hj : joinLoop tgt p rest with _ | r
      · rw [hj] at this; simp at this
      · simp
  · intro tgt parts hall
    rcases parts with _ | ⟨p, rest⟩
    · simp [join_parts]
    · simp only [join_parts]
      have := joinLoop_isSome_of_nonempty tgt rest p
        (fun q hq => hall q (by simp [hq]))
      rcases hj : joinLoop tgt p rest with _ | r
      · rw [hj] at this; simp at this
      · simp

/-- C10 counterexample: an empty translated segment after a non-punctuation
segment raises `IndexError` for English targets (`none`), while the same
input is fine for a non-English target. -/
theorem C10_counterexample :
    join_parts ["a".toList, []] "eng_Latn" = none ∧
    join_parts ["a".toList, []] "hin_Deva" = some ("a".toList) :=
  ⟨rfl, rfl⟩

/-- C10 witness: the amended totality at concrete inputs. -/
theorem C10_witness :
    (join_parts ["a".toList, []] "hin_Deva").isSome ∧
    (join_parts ["a".toList, "b".toList] "eng_Latn").isSome ∧
    join_parts [] "eng_Latn" = some [] :=
  ⟨C10_join_totality.1 "hin_Deva" ["a".toList, []] (by decide) (by decide),
   C10_join_totality.2.1 "eng_Latn" ["a".toList, "b".toList] (by decide),
   C10_join_totality.2.2 "eng_Latn"⟩

/-! ## C9: reconstruction of the original text from the segmenter output

The claim's reconstruction procedure — "concatenate the segments' contents,
inserting a single space wherever a gap existed between consecutive
segments" — is formalized by `concatWithFlags` applied to the segmenter
output and the gap-existence flags `splitFlags` (computed positionally from
the text and spans, mirroring the segmenter's walk). -/

/-- Concatenate part contents, prefixing a single space exactly where the
flag records that a gap existed before that part. -/
def concatWithFlags : List Part → List Bool → PyStr
  | [], _ => []
  | p :: ps, [] => p.content ++ concatWithFlags ps []
  | p :: ps, f :: fs =>
    (if f then [' '] else []) ++ p.content ++ concatWithFlags ps fs

/-- Gap-existence flags for the parts emitted by `splitGo`: a plain part is
preceded by a gap iff its gap slice has leading whitespace; an idiom part is
preceded by a gap iff the text between it and the previous emitted content is
non-empty (trailing whitespace of a kept plain part, or a whitespace-only
slice between two spans). -/
def flagsGo (text : PyStr) : Nat → List Span → List Bool
  | current_pos, [] =>
    if current_pos < text.length then
      (if pyStrip (text.drop current_pos) ≠ [] then
        [decide (leadWS (text.drop current_pos) ≠ [])] else [])
    else []
  | current_pos, sp :: rest =>
    (if pyStrip ((text.take sp.start).drop current_pos) ≠ [] then
      [decide (leadWS ((text.take sp.start).drop current_pos) ≠ []),
       decide (trailWS ((text.take sp.start).drop current_pos) ≠ [])]
     else [decide ((text.take sp.start).drop current_pos ≠ [])]) ++
    flagsGo text sp.stop rest

/-- Gap-existence flags aligned with `split_sentence_with_idioms` (the
empty-span case emits the single untrimmed part with no preceding gap; no
space is ever inserted before the first segment). -/
def splitFlags (text : PyStr) (idioms : List Span) : List Bool :=
  match idioms with
  | [] => [false]
  | _ => flagsGo text 0 idioms

/-- Well-formed spans over a text from cursor `pos`: sorted, pairwise
non-overlapping, non-empty, in bounds, and each `original` is the literal
slice `text[start:stop]`. -/
def SpansOk (text : PyStr) : Nat → List Span → Prop
  | _, [] => True
  | pos, sp :: rest =>
    pos ≤ sp.start ∧ sp.start < sp.stop ∧ sp.stop ≤ text.length ∧
    sp.original = (text.take sp.stop).drop sp.start ∧
    SpansOk text sp.stop rest

/-- Whitespace discipline on the gaps between consecutive pieces: every
leading/trailing whitespace run of a gap is at most one space character, a
whitespace-only gap is at most one space, and the gap before the first piece
(`first = true`) has no leading whitespace at all (nothing precedes it to
join with); the final gap has no trailing whitespace. -/
def GapsOk (text : PyStr) (first : Bool) : Nat → List Span → Prop
  | pos, [] =>
    (leadWS (text.drop pos) = [] ∨
      (first = false ∧ leadWS (text.drop pos) = [' '])) ∧
    trailWS (text.drop pos) = [] ∧
    (pyStrip (text.drop pos) = [] → text.drop pos = [])
  | pos, sp :: rest =>
    (leadWS ((text.take sp.start).drop pos) = [] ∨
      (first = false ∧ leadWS ((text.take sp.start).drop pos) = [' '])) ∧
    (trailWS ((text.take sp.start).drop pos) = [] ∨
      trailWS ((text.take sp.start).drop pos) = [' ']) ∧
    (pyStrip ((text.take sp.start).drop pos) = [] →
      ((text.take sp.start).drop pos = [] ∨
        (first = false ∧ (text.take sp.start).drop pos = [' ']))) ∧
    GapsOk text false sp.stop rest

theorem takeWhile_append_of_exists {p : Char → Bool} :
    ∀ (l₁ l₂ : PyStr), (∃ c ∈ l₁, ¬p c) →
    (l₁ ++ l₂).takeWhile p = l₁.takeWhile p := by
  intro l₁
  induction l₁ with
  | nil => intro l₂ h; simp at h
  | cons c t ih =>
    intro l₂ h
    by_cases hc : p c
    · simp only [List.cons_append, List.takeWhile_cons, hc, if_pos]
      obtain ⟨d, hd, hpd⟩ := h
      rcases List.mem_cons.mp hd with rfl | hd2
      · exact absurd hc hpd
      · rw [ih l₂ ⟨d, hd2, hpd⟩]
    · simp [List.takeWhile_cons, hc]

theorem exists_nonspace_of_strip_ne {g : PyStr} (h : pyStrip g ≠ []) :
    ∃ c ∈ g.dropWhile pyIsSpace, ¬pyIsSpace c := by
  by_contra hall
  push_neg at hall
  apply h
  unfold pyStrip
  have : (g.dropWhile pyIsSpace).reverse.dropWhile pyIsSpace = [] := by
    rw [List.dropWhile_eq_nil_iff]
    intro x hx
    exact hall x (List.mem_reverse.mp hx)
  rw [this]
  rfl

theorem trailWS_append (x h : PyStr) (hh : ∃ c ∈ h, ¬pyIsSpace c) :
    trailWS (x ++ h) = trailWS h := by
  unfold trailWS
  rw [List.reverse_append]
  rw [takeWhile_append_of_exists h.reverse x.reverse ?_]
  obtain ⟨c, hc, hpc⟩ := hh
  exact ⟨c, List.mem_reverse.mpr hc, hpc⟩

/-- Every gap decomposes as leading whitespace, stripped core, trailing
whitespace of the lead-stripped remainder. -/
theorem strip_decomp (g : PyStr) :
    g = leadWS g ++ (pyStrip g ++ trailWS (g.dropWhile pyIsSpace)) := by
  conv_lhs => rw [← List.takeWhile_append_dropWhile (p := pyIsSpace) (l := g)]
  unfold leadWS
  congr 1
  unfold pyStrip trailWS
  conv_lhs =>
    rw [← List.reverse_reverse (g.dropWhile pyIsSpace),
      ← List.takeWhile_append_dropWhile (p := pyIsSpace)
        (l := (g.dropWhile pyIsSpace).reverse)]
  rw [List.reverse_append]

theorem trailWS_of_strip_ne {g : PyStr} (h : pyStrip g ≠ []) :
    trailWS (g.dropWhile pyIsSpace) = trailWS g := by
  conv_rhs =>
    rw [← List.takeWhile_append_dropWhile (p := pyIsSpace) (l := g)]
  rw [trailWS_append _ _ (exists_nonspace_of_strip_ne h)]

/-- Slice decomposition: the suffix from `pos` splits at `start`. -/
theorem drop_slice_split (l : PyStr) (pos start : Nat)
    (h1 : pos ≤ start) (h2 : start ≤ l.length) :
    l.drop pos = (l.take start).drop pos ++ l.drop start := by
  conv_lhs => rw [← List.take_append_drop start l]
  rw [List.drop_append_of_le_length]
  rw [List.length_take]
  omega

theorem gap_ne_imp_lt {text : PyStr} {pos start : Nat}
    (h2 : start ≤ text.length)
    (hne : (text.take start).drop pos ≠ []) : pos < start := by
  by_contra hge
  apply hne
  apply List.drop_eq_nil_of_le
  rw [List.length_take]
  omega

/-- Main induction: from any cursor position, joining the emitted parts with
single spaces at recorded gaps reproduces the remaining text. -/
theorem reconGo (text : PyStr) : ∀ (spans : List Span) (pos : Nat)
    (first : Bool), pos ≤ text.length →
    SpansOk text pos spans → GapsOk text first pos spans →
    concatWithFlags (splitGo text pos spans) (flagsGo text pos spans) =
      text.drop pos := by
  intro spans
  induction spans with
  | nil =>
    intro pos first hpos hs hg
    obtain ⟨hlead, htrail, hstrip⟩ := hg
    by_cases hlen : pos < text.length
    · have hgne : text.drop pos ≠ [] := by
        intro he
        rw [List.drop_eq_nil_iff] at he
        omega
      by_cases hcore : pyStrip (text.drop pos) = []
      · exact absurd (hstrip hcore) hgne
      · simp only [splitGo, flagsGo, if_pos hlen, if_pos hcore,
          ne_eq, not_false_iff]
        simp only [concatWithFlags, Part.content, List.append_nil]
        have hdec := strip_decomp (text.drop pos)
        rw [trailWS_of_strip_ne hcore] at hdec
        rw [htrail, List.append_nil] at hdec
        rcases hlead with hl | ⟨_, hl⟩
        · rw [hl, List.nil_append] at hdec
          rw [if_neg (by simp [hl]), List.nil_append]
          exact hdec.symm
        · rw [if_pos (by simp [hl])]
          rw [hl] at hdec
          exact hdec.symm
    · have : text.drop pos = [] := List.drop_eq_nil_of_le (by omega)
      simp only [splitGo, flagsGo, if_neg hlen]
      simp [concatWithFlags, this]
  | cons sp rest ih =>
    intro pos first hpos hs hg
    obtain ⟨hps, hss, hsl, horig, hsrest⟩ := hs
    obtain ⟨hlead, htrail, hstrip, hgrest⟩ := hg
    have hrec := ih sp.stop false (by omega) hsrest hgrest
    have hsplit1 : text.drop pos =
        (text.take sp.start).drop pos ++ text.drop sp.start :=
      drop_slice_split text pos sp.start hps (by omega)
    have hsplit2 : text.drop sp.start =
        (text.take sp.stop).drop sp.start ++ text.drop sp.stop :=
      drop_slice_split text sp.start sp.stop (by omega) hsl
    by_cases hcore : pyStrip ((text.take sp.start).drop pos) = []
    · have hplain : (if pos < sp.start then
          (if pyStrip ((text.take sp.start).drop pos) ≠ [] then
            [Part.text (pyStrip ((text.take sp.start).drop pos))]
           else []) else []) = ([] : List Part) := by
        rcases Nat.lt_or_ge pos sp.start with h | h
        · rw [if_pos h, if_neg (by simp [hcore])]
        · rw [if_neg (by omega)]
      have hflags : (if pyStrip ((text.take sp.start).drop pos) ≠ [] then
          [decide (leadWS ((text.take sp.start).drop pos) ≠ []),
           decide (trailWS ((text.take sp.start).drop pos) ≠ [])]
         else [decide ((text.take sp.start).drop pos ≠ [])]) =
          [decide ((text.take sp.start).drop pos ≠ [])] := by
        rw [if_neg (by simp [hcore])]
      simp only [splitGo, flagsGo, hplain, hflags, List.nil_append,
        List.singleton_append]
      simp only [concatWithFlags, Part.content]
      rw [hrec, hsplit1, hsplit2, ← horig]
      rcases hstrip hcore with hg0 | ⟨_, hg0⟩ <;> rw [hg0] <;> simp
    · have hgne : (text.take sp.start).drop pos ≠ [] := by
        intro he; exact hcore (by rw [he]; rfl)
      have hlt : pos < sp.start := gap_ne_imp_lt (by omega) hgne
      have hplain : (if pos < sp.start then
          (if pyStrip ((text.take sp.start).drop pos) ≠ [] then
            [Part.text (pyStrip ((text.take sp.start).drop pos))]
           else []) else []) =
          [Part.text (pyStrip ((text.take sp.start).drop pos))] := by
        rw [if_pos hlt, if_pos hcore]
      have hflags : (if pyStrip ((text.take sp.start).drop pos) ≠ [] then
          [decide (leadWS ((text.take sp.start).drop pos) ≠ []),
           decide (trailWS ((text.take sp.start).drop pos) ≠ [])]
         else [decide ((text.take sp.start).drop pos ≠ [])]) =
          [decide (leadWS ((text.take sp.start).drop pos) ≠ []),
           decide (trailWS ((text.take sp.start).drop pos) ≠ [])] := by
        rw [if_pos hcore]
      simp only [splitGo, flagsGo, hplain, hflags, List.cons_append,
        List.singleton_append, List.nil_append]
      simp only [concatWithFlags, Part.content]
      have hdec := strip_decomp ((text.take sp.start).drop pos)
      rw [trailWS_of_strip_ne hcore] at hdec
      rw [hrec, hsplit1, hsplit2, ← horig]
      rcases hlead with hl | ⟨_, hl⟩
      · rcases htrail with ht | ht
        · rw [hl, ht] at hdec
          simp only [hl, ht]
          conv_rhs => rw [hdec]
          simp
        · rw [hl, ht] at hdec
          simp only [hl, ht]
          conv_rhs => rw [hdec]
          simp
      · rcases htrail with ht | ht
        · rw [hl, ht] at hdec
          simp only [hl, ht]
          conv_rhs => rw [hdec]
          simp
        · rw [hl, ht] at hdec
          simp only [hl, ht]
          conv_rhs => rw [hdec]
          simp

/-- C9 (amended): concatenating the segmenter's output contents, inserting a
single space exactly where a gap existed between consecutive segments,
reconstructs the original text — for the empty span list unconditionally, and
for sorted, non-overlapping, in-bounds span sets whenever every whitespace
run at a gap edge is at most a single space character (a gap with a two-space
run, or a tab, is reconstructed as one space — see `C9_counterexample`). -/
theorem C9_reconstruction :
    (∀ text : PyStr, concatWithFlags (split_sentence_with_idioms text [])
      (splitFlags text []) = text) ∧
    (∀ (text : PyStr) (spans : List Span), spans ≠ [] →
      SpansOk text 0 spans → GapsOk text true 0 spans →
      concatWithFlags (split_sentence_with_idioms text spans)
        (splitFlags text spans) = text) := by
  constructor
  · intro text
    simp [split_sentence_with_idioms, splitFlags, concatWithFlags,
      Part.content]
  · intro text spans hne hs hg
    rcases spans with _ | ⟨sp, rest⟩
    · exact absurd rfl hne
    · have := reconGo text (sp :: rest) 0 true (by omega) hs hg
      simpa [split_sentence_with_idioms, splitFlags] using this

/-- C9 counterexample: with the two-space gap in `"ab  cd"` and the single
span `[4, 6)`, the claim's premises (sorted, non-overlapping spans over the
text) hold, yet the reconstruction gives `"ab cd"` ≠ `"ab  cd"`. -/
theorem C9_counterexample :
    SpansOk ("ab  cd".toList) 0 [⟨"cd", 4, 6, "cd".toList⟩] ∧
    concatWithFlags
      (split_sentence_with_idioms ("ab  cd".toList)
        [⟨"cd", 4, 6, "cd".toList⟩])
      (splitFlags ("ab  cd".toList) [⟨"cd", 4, 6, "cd".toList⟩]) =
      ("ab cd".toList) ∧
    ("ab cd".toList : PyStr) ≠ ("ab  cd".toList) :=
  ⟨⟨by decide, by decide, by decide, rfl, trivial⟩, rfl, by decide⟩

/-- C9 witness: a concrete single-space-gapped sentence reconstructs exactly,
via the amended theorem. -/
theorem C9_witness :
    concatWithFlags
      (split_sentence_with_idioms ("go break the ice now".toList)
        [⟨"break the ice", 3, 16, "break the ice".toList⟩])
      (splitFlags ("go break the ice now".toList)
        [⟨"break the ice", 3, 16, "break the ice".toList⟩]) =
      ("go break the ice now".toList) :=
  C9_reconstruction.2 ("go break the ice now".toList)
    [⟨"break the ice", 3, 16, "break the ice".toList⟩]
    (by decide)
    ⟨by decide, by decide, by decide, rfl, trivial⟩
    ⟨Or.inl rfl, Or.inr rfl, by decide, Or.inr ⟨rfl, rfl⟩, rfl, by decide⟩

end ContextBridge
